import Mathlib

/-!
# Shallow embedding of `src/decoder/MseDecoder.ts` (ws-scrcpy)

This file models the MSE-based H.264 playback controller `MseDecoder`:
its sliding-window quality/input sample store, the momentum estimator
(`calculateMomentumStats`), the stall detector and seek-to-buffered-end
recovery inside `pushFrame`, the key-frame buffer-trim policy, and the
converter lifecycle (`play`, `stop`, `setVideoSettings`).

Conventions of the embedding:
* JavaScript numbers holding `Date.now()` readings, byte counts and frame
  counters are modelled as `ℤ`; media times (buffered ranges, seek targets)
  are modelled as `ℚ`.
* The several `Date.now()` calls performed inside one synchronous
  `pushFrame` invocation are modelled as returning one and the same
  instant `now`, passed as a parameter.
* The external output surface (`this.tag`) is read-only for the parts the
  claims need: its buffered-range list is passed as a parameter to
  `pushFrame`; the forced seek (`currentTime := ...`), the
  `sourceBuffer.remove` request and the append are reported as effects.
* The base class `Decoder` is not part of the sources; the pieces of it
  the control flow depends on are modelled from the spec and marked
  `Modelled from the spec:` in their doc comments.
-/

namespace MseDecoder

/-- The `QualityStats` interface of the source: one cumulative
playback-quality sample `{timestamp, decodedFrames, droppedFrames}`. -/
structure QualityStats where
  timestamp : ℤ
  decodedFrames : ℤ
  droppedFrames : ℤ
  deriving DecidableEq, Repr

/-- Modelled from the spec: an `InputSample` `{timestamp, bytes}` recorded by
the base `Decoder` class (not in the sources) into `this.inputBytes` once per
pushed frame. -/
structure InputSample where
  timestamp : ℤ
  bytes : ℤ
  deriving DecidableEq, Repr

/-- The object stored into `this.momentumQualityStats` by
`calculateMomentumStats`. -/
structure MomentumStats where
  decodedFrames : ℤ
  droppedFrames : ℤ
  inputBytes : ℤ
  inputFrames : ℤ
  timestamp : ℤ
  deriving DecidableEq, Repr

/-- Modelled from the spec: a frame buffer together with its key-frame
classification. `Decoder.isIFrame` lives in the base class (not in the
sources); the spec describes it as an external frame classifier
`isKeyFrame(frameBytes) -> boolean`, so the classification is carried as a
field. `bytes` is the buffer length. -/
structure Frame where
  isKey : Bool
  bytes : ℤ
  deriving DecidableEq, Repr

/-- Which playback-quality capability branch of `getVideoPlaybackQuality`
applies for the current renderer backend: Mozilla counters present (the
source returns `null` there), the standard `getVideoPlaybackQuality` API,
Webkit-prefixed counters, or none of them. The carried integers are the
cumulative decoded/dropped counters the backend would report. -/
inductive Backend where
  | moz : Backend
  | standard (decoded dropped : ℤ) : Backend
  | webkit (decoded dropped : ℤ) : Backend
  | unavailable : Backend
  deriving DecidableEq, Repr

/-- The base decoder states (`Decoder.STATE`). -/
inductive PlayState where
  | INIT : PlayState
  | PLAYING : PlayState
  | PAUSED : PlayState
  | STOPPED : PlayState
  deriving DecidableEq, Repr

/-- The slice of `VideoSettings` the modelled code inspects: only `maxFps`
is read by `MseDecoder` (`setVideoSettings` compares it, `play` sizes the
converter with it). -/
structure VideoSettings where
  maxFps : ℤ
  deriving DecidableEq, Repr

/-- The mutable fields of an `MseDecoder` instance (together with the base
class fields the modelled methods touch). The converter is modelled by the
fps it was created with (`some fps`), `none` when absent. -/
structure DecoderState where
  videoStats : List QualityStats
  inputBytes : List InputSample
  momentumQualityStats : Option MomentumStats
  stalledCounter : ℕ
  isSeeking : Bool
  converter : Option ℤ
  playState : PlayState
  screenInfo : Bool
  videoSettings : Option VideoSettings
  deriving DecidableEq, Repr

/-- `MseDecoder.DEFAULT_FRAMES_PER_SECOND`. -/
def DEFAULT_FRAMES_PER_SECOND : ℤ := 60

/-- `getVideoPlaybackQuality()`: returns `null` when Mozilla counters are
exposed, otherwise a `QualityStats` sampled at `now` from the standard API
or the Webkit counters, and `null` when neither is available. -/
def getVideoPlaybackQuality (b : Backend) (now : ℤ) : Option QualityStats :=
  match b with
  | Backend.moz => none
  | Backend.standard d r => some ⟨now, d, r⟩
  | Backend.webkit d r => some ⟨now, d, r⟩
  | Backend.unavailable => none

/-- The window-eviction loop shared by both sample windows:
`while (w.length && w[0].timestamp < cutoff) w.shift()`. -/
def evictOld {α : Type} (ts : α → ℤ) (cutoff : ℤ) (l : List α) : List α :=
  l.dropWhile fun a => decide (ts a < cutoff)

/-- `calculateMomentumStats()`: sample the playback quality; if unavailable
return unchanged. Otherwise push the sample, evict both windows at
`now − 1000`, sum the retained input bytes, and, when the quality window is
non-empty, replace `momentumQualityStats` by the deltas of the fresh sample
against the oldest retained one. -/
def calculateMomentumStats (b : Backend) (now : ℤ) (s : DecoderState) : DecoderState :=
  match getVideoPlaybackQuality b now with
  | none => s
  | some stat =>
      let oneSecondBefore := now - 1000
      let videoStats := evictOld QualityStats.timestamp oneSecondBefore (s.videoStats ++ [stat])
      let inputWindow := evictOld InputSample.timestamp oneSecondBefore s.inputBytes
      let inputBytesSum := (inputWindow.map InputSample.bytes).sum
      let inputFrames : ℤ := inputWindow.length
      match videoStats with
      | [] => { s with videoStats := videoStats, inputBytes := inputWindow }
      | oldest :: rest =>
          { s with
            videoStats := oldest :: rest
            inputBytes := inputWindow
            momentumQualityStats := some
              { decodedFrames := stat.decodedFrames - oldest.decodedFrames
                droppedFrames := stat.droppedFrames - oldest.droppedFrames
                inputBytes := inputBytesSum
                inputFrames := inputFrames
                timestamp := now } }

/-- `resetStats()`: `super.resetStats()` — modelled from the spec:
"`resetStats()` (clears both sample windows)", so the base class clears the
input window — followed by `this.videoStats = []`. -/
def resetStats (s : DecoderState) : DecoderState :=
  { s with videoStats := [], inputBytes := [] }

/-- Modelled from the spec: `super.pushFrame(frame)` (base class, not in the
sources) "updates the Sample Store input window → triggers the Quality
Sampler → feeds the Momentum Estimator": it records an `InputSample` at
`now` for the pushed frame and then runs the momentum recomputation. -/
def superPushFrame (b : Backend) (bytes : ℤ) (now : ℤ) (s : DecoderState) : DecoderState :=
  calculateMomentumStats b now { s with inputBytes := s.inputBytes ++ [⟨now, bytes⟩] }

/-- `Decoder.isIFrame(frame)` — modelled from the spec: the external frame
classifier; the classification travels with the frame. -/
def isIFrame (f : Frame) : Bool :=
  f.isKey

/-- JavaScript `x | 0` on a media time: ToInt32 truncates toward zero; for
the finite, small (|x| < 2³¹) values buffered media times take this is
truncation toward zero, which on non-negatives coincides with the floor. -/
def jsTrunc (q : ℚ) : ℤ :=
  if 0 ≤ q then ⌊q⌋ else -⌊-q⌋

/-- The observable per-push effects of `pushFrame`: the
`sourceBuffer.remove(start, end)` request (if any), whether the frame was
appended via `converter.appendRawData`, and the forced-seek target written
to `tag.currentTime` (if any). The removal, when present, is issued before
the append, and the seek is issued after the append. -/
structure PushEffects where
  removal : Option (ℚ × ℤ)
  appended : Bool
  seek : Option ℚ
  deriving DecidableEq, Repr

/-- The key-frame buffer-trim half of `pushFrame` (and the append): when a
converter exists, an I-frame with a buffered first range `[start, end)`
whose `end | 0` is nonzero and greater than `start` triggers
`sourceBuffer.remove(start, end | 0)` before `appendRawData(frame)`. -/
def trimSection (f : Frame) (buffered : List (ℚ × ℚ)) (s : DecoderState) :
    Option (ℚ × ℤ) × Bool :=
  match s.converter with
  | none => (none, false)
  | some _ =>
      let removal :=
        if isIFrame f then
          let start : ℚ := match buffered with | [] => 0 | r :: _ => r.1
          let e : ℤ := match buffered with | [] => 0 | r :: _ => jsTrunc r.2
          if e ≠ 0 ∧ start < (e : ℚ) then some (start, e) else none
        else none
      (removal, true)

/-- The condition of the stall branch of `pushFrame`:
`momentumQualityStats.decodedFrames === 0 && momentumQualityStats.inputFrames > 0`. -/
def stalledObs (o : Option MomentumStats) : Bool :=
  match o with
  | some m => decide (m.decodedFrames = 0) && decide (0 < m.inputFrames)
  | none => false

/-- The stall-detection and recovery half of `pushFrame` (source lines
207–225): when momentum stats exist and no seek is in flight, increment the
stalled counter on a stalled observation, reset it otherwise; then, when the
counter exceeds 5 and a buffered range exists, set the seek-in-flight flag,
(register the one-shot `seeked` listener,) force `currentTime` to the end of
the first buffered range and zero the counter. -/
def stallSection (buffered : List (ℚ × ℚ)) (s : DecoderState) :
    DecoderState × Option ℚ :=
  let s1 :=
    match s.momentumQualityStats, s.isSeeking with
    | some m, false =>
        if m.decodedFrames = 0 ∧ 0 < m.inputFrames then
          { s with stalledCounter := s.stalledCounter + 1 }
        else
          { s with stalledCounter := 0 }
    | some _, true => s
    | none, _ => s
  match buffered with
  | [] => (s1, none)
  | r :: _ =>
      if 5 < s1.stalledCounter then
        ({ s1 with isSeeking := true, stalledCounter := 0 }, some r.2)
      else (s1, none)

/-- `pushFrame(frame)`: `super.pushFrame` first (input recording plus
momentum recomputation), then the key-frame trim and the append, then the
stall detector. `buffered` is the output surface's buffered-range list
during this push. -/
def pushFrame (b : Backend) (f : Frame) (buffered : List (ℚ × ℚ)) (now : ℤ)
    (s : DecoderState) : DecoderState × PushEffects :=
  let s1 := superPushFrame b f.bytes now s
  let t := trimSection f buffered s1
  let r := stallSection buffered s1
  (r.1, ⟨t.1, t.2, r.2⟩)

/-- The one-shot `seeked` listener `onSeekEnd`: clears the seek-in-flight
flag (and removes itself from the output surface). -/
def onSeekEnd (s : DecoderState) : DecoderState :=
  { s with isSeeking := false }

/-- One `pushFrame` invocation's inputs: the quality backend, the frame, the
output surface's buffered ranges and the clock reading during that push. -/
structure PushIn where
  backend : Backend
  frame : Frame
  buffered : List (ℚ × ℚ)
  now : ℤ
  deriving DecidableEq, Repr

/-- Run a sequence of `pushFrame` calls, returning for each the state after
the call and its effects (no `seeked` event fires during the run). -/
def pushTrace (s : DecoderState) : List PushIn → List (DecoderState × PushEffects)
  | [] => []
  | i :: rest =>
      let r := pushFrame i.backend i.frame i.buffered i.now s
      r :: pushTrace r.1 rest

/-- The forced-seek targets issued along a trace, one entry per push. -/
def traceSeeks (l : List (DecoderState × PushEffects)) : List (Option ℚ) :=
  l.map fun x => x.2.seek

/-- The stalled-counter values after each push of a trace. -/
def traceCounters (l : List (DecoderState × PushEffects)) : List ℕ :=
  l.map fun x => x.1.stalledCounter

/-- Whether the momentum stats observed after each push of a trace satisfy
the stall condition (`decodedFrames == 0 && inputFrames > 0`). -/
def traceStalled (l : List (DecoderState × PushEffects)) : List Bool :=
  l.map fun x => stalledObs x.1.momentumQualityStats

/- Concrete scenario material. -/

/-- A freshly playing decoder: empty sample windows, no momentum stats yet,
stall counter 0, no seek in flight, a converter created at the default
60 fps. -/
def initialState : DecoderState :=
  { videoStats := []
    inputBytes := []
    momentumQualityStats := none
    stalledCounter := 0
    isSeeking := false
    converter := some 60
    playState := PlayState.PLAYING
    screenInfo := true
    videoSettings := some ⟨60⟩ }

/-- A push at time `t` of a 100-byte non-key frame while the renderer's
cumulative decoded counter is frozen at 7 (stalled renderer) and the output
surface reports the single buffered range `[0, 3)`. -/
def stalledIn (t : ℤ) : PushIn :=
  { backend := Backend.standard 7 0
    frame := ⟨false, 100⟩
    buffered := [((0 : ℚ), (3 : ℚ))]
    now := t }

/-- Five consecutive stalled pushes, 100 ms apart. -/
def fiveStalled : List PushIn :=
  [stalledIn 0, stalledIn 100, stalledIn 200, stalledIn 300, stalledIn 400]

/-- Six consecutive stalled pushes, 100 ms apart. -/
def sixStalled : List PushIn :=
  [stalledIn 0, stalledIn 100, stalledIn 200, stalledIn 300, stalledIn 400,
    stalledIn 500]

/-- A two-range buffered list: `[0, 2)` and `[3, 10)`; its last range ends
at 10, its first at 2. -/
def twoRanges : List (ℚ × ℚ) :=
  [((0 : ℚ), (2 : ℚ)), ((3 : ℚ), (10 : ℚ))]

/-- A stalled push (as `stalledIn`) over the two-range buffered list. -/
def stalledIn2 (t : ℤ) : PushIn :=
  { backend := Backend.standard 7 0
    frame := ⟨false, 100⟩
    buffered := twoRanges
    now := t }

/-- Six consecutive stalled pushes over the two-range buffered list. -/
def sixStalled2 : List PushIn :=
  [stalledIn2 0, stalledIn2 100, stalledIn2 200, stalledIn2 300, stalledIn2 400,
    stalledIn2 500]

/- Converter lifecycle (`play`, `pause`, `stop`, `setVideoSettings`). The
observable calls these methods make are reported as a list of events. -/

/-- The externally observable calls the lifecycle methods perform. -/
inductive MseEvent where
  | converterPaused : MseEvent
  | converterCreated (fps : ℤ) : MseEvent
  | statsReset : MseEvent
  | converterPlayed : MseEvent
  deriving DecidableEq, Repr

/-- Modelled from the spec: `super.play()` (base class, not in the sources)
is the base lifecycle hook `onPlay`; it drives the base state machine to
`PLAYING` and touches none of `MseDecoder`'s private fields
(`videoStats`, `stalledCounter`, `isSeeking`, `converter`). -/
def superPlay (s : DecoderState) : DecoderState :=
  { s with playState := PlayState.PLAYING }

/-- Modelled from the spec: `super.pause()` — the base `onPause` hook. -/
def superPause (s : DecoderState) : DecoderState :=
  { s with playState := PlayState.PAUSED }

/-- Modelled from the spec: `super.stop()` — the base `onStop` hook. -/
def superStop (s : DecoderState) : DecoderState :=
  { s with playState := PlayState.STOPPED }

/-- Modelled from the spec: `super.setVideoSettings(videoSettings,
saveToStorage)` stores the settings object (persistence of user-chosen
settings is out of scope and the `saveToStorage` flag is dropped). -/
def superSetVideoSettings (v : VideoSettings) (s : DecoderState) : DecoderState :=
  { s with videoSettings := some v }

/-- `stopConverter()`: if a converter exists, flush it with an empty append,
pause it and delete it. -/
def stopConverter (s : DecoderState) : DecoderState × List MseEvent :=
  match s.converter with
  | none => (s, [])
  | some _ => ({ s with converter := none }, [MseEvent.converterPaused])

/-- `play()`: delegate to the base, bail out unless the state reached
`PLAYING` and screen info exists, create the converter (sized by
`videoSettings.maxFps`, default 60) and reset the stats only when no
converter exists, then start the converter. -/
def play (s : DecoderState) : DecoderState × List MseEvent :=
  let s1 := superPlay s
  if s1.playState = PlayState.PLAYING ∧ s1.screenInfo = true then
    match s1.converter with
    | none =>
        let fps := match s1.videoSettings with
          | some v => v.maxFps
          | none => DEFAULT_FRAMES_PER_SECOND
        (resetStats { s1 with converter := some fps },
          [MseEvent.converterCreated fps, MseEvent.statsReset,
            MseEvent.converterPlayed])
    | some _ => (s1, [MseEvent.converterPlayed])
  else (s1, [])

/-- `stop()`: delegate to the base, then stop the converter. -/
def stop (s : DecoderState) : DecoderState × List MseEvent :=
  stopConverter (superStop s)

/-- `pause()`: delegate to the base, then stop the converter. -/
def pause (s : DecoderState) : DecoderState × List MseEvent :=
  stopConverter (superPause s)

/-- `setVideoSettings(videoSettings, saveToStorage)`: when settings exist
and `maxFps` changed, capture the current state, and if a converter exists
stop playback and immediately create a replacement converter sized by the
new `maxFps`; if the captured state was `PLAYING`, call `play()`; finally
delegate to the base to store the settings. -/
def setVideoSettings (v : VideoSettings) (s : DecoderState) :
    DecoderState × List MseEvent :=
  match s.videoSettings with
  | some old =>
      if old.maxFps ≠ v.maxFps then
        let st0 := s.playState
        let r1 :=
          match s.converter with
          | some _ =>
              let r := stop s
              ({ r.1 with converter := some v.maxFps },
                r.2 ++ [MseEvent.converterCreated v.maxFps])
          | none => (s, ([] : List MseEvent))
        let r2 :=
          if st0 = PlayState.PLAYING then
            let p := play r1.1
            (p.1, r1.2 ++ p.2)
          else r1
        (superSetVideoSettings v r2.1, r2.2)
      else (superSetVideoSettings v s, [])
  | none => (superSetVideoSettings v s, [])

/-- A decoder state with partially aged sample windows: quality samples at
0 ms and 600 ms, input samples at 100 ms and 700 ms. -/
def agedState : DecoderState :=
  { initialState with
    videoStats := [⟨0, 1, 0⟩, ⟨600, 2, 0⟩]
    inputBytes := [⟨100, 50⟩, ⟨700, 60⟩] }

/-! ## Theorems -/

/-- C1 (counterexample): starting in the Normal state (no seek in flight,
counter 0), five consecutive pushes whose momentum recomputation each
yields `decodedFrames = 0` and `inputFrames > 0`, with the output surface
reporting a buffered range throughout, request no forced seek at all — the
counter only reaches 5, and the recovery condition is `stalledCounter > 5`.
The claim's "exactly once" fails at this concrete execution. -/
theorem C1_counterexample :
    initialState.isSeeking = false ∧
    initialState.stalledCounter = 0 ∧
    fiveStalled.all (fun i => !i.buffered.isEmpty) = true ∧
    traceStalled (pushTrace initialState fiveStalled) =
      [true, true, true, true, true] ∧
    traceSeeks (pushTrace initialState fiveStalled) =
      [none, none, none, none, none] ∧
    traceCounters (pushTrace initialState fiveStalled) = [1, 2, 3, 4, 5] := by
  decide

/-- C2: from a zero stall counter with no seek in flight, three consecutive
stalled pushes raise the counter to 3 with no recovery seek; the 6th
consecutive stalled push of the same contiguous run requests the recovery
seek (to the buffered-range end, 3) and resets the counter to 0 on that
same push. -/
theorem C2_stall_scenario :
    initialState.stalledCounter = 0 ∧
    initialState.isSeeking = false ∧
    traceStalled (pushTrace initialState sixStalled) =
      [true, true, true, true, true, true] ∧
    traceSeeks (pushTrace initialState sixStalled) =
      [none, none, none, none, none, some 3] ∧
    traceCounters (pushTrace initialState sixStalled) = [1, 2, 3, 4, 5, 0] := by
  decide

/-- C3 (counterexample): when the recovery fires with the two buffered
ranges `[0, 2)` and `[3, 10)`, the forced seek targets 2 — the end of the
*first* buffered range — not 10, the end of the last one, refuting the
claim for buffered-range lists with more than one range. -/
theorem C3_counterexample :
    traceSeeks (pushTrace initialState sixStalled2) =
      [none, none, none, none, none, some 2] ∧
    twoRanges.getLast? = some ((3 : ℚ), (10 : ℚ)) ∧
    some (2 : ℚ) ≠ some (10 : ℚ) := by
  decide

/-- C8: when the renderer backend exposes no playback-quality counters
(Mozilla counters present, or no counter API at all), the momentum
recomputation performs no update at all: the whole decoder state — in
particular `momentumQualityStats` — is returned unchanged, and the
function is total (no error is raised). -/
theorem C8_unavailable_counters_no_update (s : DecoderState) (now : ℤ) :
    calculateMomentumStats Backend.moz now s = s ∧
    calculateMomentumStats Backend.unavailable now s = s := by
  exact ⟨rfl, rfl⟩


lemma superPushFrame_def (b : Backend) (bytes now : ℤ) (s : DecoderState) :
    superPushFrame b bytes now s =
      calculateMomentumStats b now { s with inputBytes := s.inputBytes ++ [⟨now, bytes⟩] } :=
  rfl

lemma calculateMomentumStats_flags (b : Backend) (now : ℤ) (s : DecoderState) :
    (calculateMomentumStats b now s).stalledCounter = s.stalledCounter ∧
    (calculateMomentumStats b now s).isSeeking = s.isSeeking ∧
    (calculateMomentumStats b now s).converter = s.converter := by
  unfold calculateMomentumStats
  rcases hgv : getVideoPlaybackQuality b now with _ | stat
  · exact ⟨rfl, rfl, rfl⟩
  · simp only
    split <;> simp

lemma superPushFrame_flags (b : Backend) (bytes now : ℤ) (s : DecoderState) :
    (superPushFrame b bytes now s).stalledCounter = s.stalledCounter ∧
    (superPushFrame b bytes now s).isSeeking = s.isSeeking ∧
    (superPushFrame b bytes now s).converter = s.converter := by
  rw [superPushFrame_def]
  exact calculateMomentumStats_flags b now _

lemma stallSection_preserves (buffered : List (ℚ × ℚ)) (s : DecoderState) :
    (stallSection buffered s).1.momentumQualityStats = s.momentumQualityStats ∧
    (stallSection buffered s).1.converter = s.converter := by
  unfold stallSection
  rcases hm : s.momentumQualityStats with _ | m <;>
    rcases hs : s.isSeeking <;>
      rcases buffered with _ | ⟨r, rest⟩ <;>
        simp only [hm, hs] <;>
          first
          | (split_ifs <;> simp_all)
          | simp_all

lemma pushFrame_fst (b : Backend) (f : Frame) (buffered : List (ℚ × ℚ)) (now : ℤ)
    (s : DecoderState) :
    (pushFrame b f buffered now s).1 =
      (stallSection buffered (superPushFrame b f.bytes now s)).1 :=
  rfl

lemma pushFrame_seek (b : Backend) (f : Frame) (buffered : List (ℚ × ℚ)) (now : ℤ)
    (s : DecoderState) :
    (pushFrame b f buffered now s).2.seek =
      (stallSection buffered (superPushFrame b f.bytes now s)).2 :=
  rfl

lemma stallSection_inFlight (buffered : List (ℚ × ℚ)) (s : DecoderState)
    (hseek : s.isSeeking = true) (hc : s.stalledCounter ≤ 5) :
    stallSection buffered s = (s, none) := by
  unfold stallSection
  rcases hm : s.momentumQualityStats with _ | m <;>
    rcases buffered with _ | ⟨r, rest⟩ <;>
      simp only [hm, hseek] <;>
        first
        | rfl
        | (rw [if_neg (by omega)])

lemma stallSection_stalled_low (r : ℚ × ℚ) (rest : List (ℚ × ℚ)) (s : DecoderState)
    (hseek : s.isSeeking = false) (hst : stalledObs s.momentumQualityStats = true)
    (hc : s.stalledCounter < 5) :
    stallSection (r :: rest) s =
      ({ s with stalledCounter := s.stalledCounter + 1 }, none) := by
  rcases hm : s.momentumQualityStats with _ | m
  · rw [hm] at hst; simp [stalledObs] at hst
  · rw [hm] at hst
    simp only [stalledObs, Bool.and_eq_true, decide_eq_true_eq] at hst
    unfold stallSection
    rw [hm, hseek]
    dsimp only
    rw [if_pos hst]
    dsimp only
    rw [if_neg (by omega : ¬ 5 < s.stalledCounter + 1)]

lemma stallSection_stalled_high (r : ℚ × ℚ) (rest : List (ℚ × ℚ)) (s : DecoderState)
    (hseek : s.isSeeking = false) (hst : stalledObs s.momentumQualityStats = true)
    (hc : 5 ≤ s.stalledCounter) :
    stallSection (r :: rest) s =
      ({ s with stalledCounter := 0, isSeeking := true }, some r.2) := by
  rcases hm : s.momentumQualityStats with _ | m
  · rw [hm] at hst; simp [stalledObs] at hst
  · rw [hm] at hst
    simp only [stalledObs, Bool.and_eq_true, decide_eq_true_eq] at hst
    unfold stallSection
    rw [hm, hseek]
    dsimp only
    rw [if_pos hst]
    dsimp only
    rw [if_pos (by omega : 5 < s.stalledCounter + 1)]

lemma pushFrame_inFlight (b : Backend) (f : Frame) (buffered : List (ℚ × ℚ))
    (now : ℤ) (s : DecoderState)
    (hseek : s.isSeeking = true) (hc : s.stalledCounter ≤ 5) :
    (pushFrame b f buffered now s).2.seek = none ∧
    (pushFrame b f buffered now s).1.isSeeking = true ∧
    (pushFrame b f buffered now s).1.stalledCounter = s.stalledCounter := by
  have hf := superPushFrame_flags b f.bytes now s
  have h := stallSection_inFlight buffered (superPushFrame b f.bytes now s)
    (by rw [hf.2.1]; exact hseek) (by rw [hf.1]; exact hc)
  rw [pushFrame_seek, pushFrame_fst, h]
  exact ⟨rfl, hf.2.1.trans hseek, hf.1⟩

lemma trace_inFlight (ins : List PushIn) : ∀ s : DecoderState,
    s.isSeeking = true → s.stalledCounter ≤ 5 →
    ((pushTrace s ins).countP fun x => x.2.seek.isSome) = 0 := by
  induction ins with
  | nil => intro s _ _; rfl
  | cons i rest ih =>
      intro s hseek hc
      have h := pushFrame_inFlight i.backend i.frame i.buffered i.now s hseek hc
      simp only [pushTrace, List.countP_cons, h.1, Option.isSome_none,
        Bool.false_eq_true, if_false, add_zero]
      exact ih _ h.2.1 (h.2.2.trans_le hc)

lemma stallSection_fire (buffered : List (ℚ × ℚ)) (s : DecoderState)
    (h : ((stallSection buffered s).2).isSome = true) :
    (stallSection buffered s).1.stalledCounter = 0 ∧
    (stallSection buffered s).1.isSeeking = true ∧
    buffered.head?.map Prod.snd = (stallSection buffered s).2 := by
  unfold stallSection at h ⊢
  rcases buffered with _ | ⟨r, rest⟩
  · simp at h
  · dsimp only at h ⊢
    split_ifs at h ⊢
    · exact ⟨rfl, rfl, rfl⟩
    · simp at h

lemma pushFrame_fire (b : Backend) (f : Frame) (buffered : List (ℚ × ℚ)) (now : ℤ)
    (s : DecoderState)
    (h : ((pushFrame b f buffered now s).2.seek).isSome = true) :
    (pushFrame b f buffered now s).1.stalledCounter = 0 ∧
    (pushFrame b f buffered now s).1.isSeeking = true ∧
    buffered.head?.map Prod.snd = (pushFrame b f buffered now s).2.seek := by
  rw [pushFrame_seek] at h ⊢
  rw [pushFrame_fst]
  exact stallSection_fire buffered _ h

lemma trace_fire (ins : List PushIn) : ∀ s : DecoderState,
    ∀ x ∈ pushTrace s ins, (x.2.seek).isSome = true → x.1.stalledCounter = 0 := by
  induction ins with
  | nil => intro s x hx; simp [pushTrace] at hx
  | cons i rest ih =>
      intro s x hx hfire
      simp only [pushTrace, List.mem_cons] at hx
      rcases hx with rfl | hx
      · exact (pushFrame_fire i.backend i.frame i.buffered i.now s hfire).1
      · exact ih _ x hx hfire

lemma pushFrame_stalled_low (b : Backend) (f : Frame) (buffered : List (ℚ × ℚ))
    (now : ℤ) (s : DecoderState) (hbne : buffered ≠ [])
    (hseek : s.isSeeking = false)
    (hst : stalledObs (pushFrame b f buffered now s).1.momentumQualityStats = true)
    (hc : s.stalledCounter < 5) :
    (pushFrame b f buffered now s).2.seek = none ∧
    (pushFrame b f buffered now s).1.isSeeking = false ∧
    (pushFrame b f buffered now s).1.stalledCounter = s.stalledCounter + 1 := by
  rcases buffered with _ | ⟨r, rest⟩
  · exact absurd rfl hbne
  · have hf := superPushFrame_flags b f.bytes now s
    rw [pushFrame_fst, (stallSection_preserves _ _).1] at hst
    have h := stallSection_stalled_low r rest (superPushFrame b f.bytes now s)
      (by rw [hf.2.1]; exact hseek) hst (by rw [hf.1]; exact hc)
    rw [pushFrame_seek, pushFrame_fst, h]
    exact ⟨rfl, hf.2.1.trans hseek, by simp [hf.1]⟩

lemma pushFrame_stalled_high (b : Backend) (f : Frame) (buffered : List (ℚ × ℚ))
    (now : ℤ) (s : DecoderState) (hbne : buffered ≠ [])
    (hseek : s.isSeeking = false)
    (hst : stalledObs (pushFrame b f buffered now s).1.momentumQualityStats = true)
    (hc : 5 ≤ s.stalledCounter) :
    ((pushFrame b f buffered now s).2.seek).isSome = true ∧
    (pushFrame b f buffered now s).1.isSeeking = true ∧
    (pushFrame b f buffered now s).1.stalledCounter = 0 := by
  rcases buffered with _ | ⟨r, rest⟩
  · exact absurd rfl hbne
  · have hf := superPushFrame_flags b f.bytes now s
    rw [pushFrame_fst, (stallSection_preserves _ _).1] at hst
    have h := stallSection_stalled_high r rest (superPushFrame b f.bytes now s)
      (by rw [hf.2.1]; exact hseek) hst (by rw [hf.1]; exact hc)
    rw [pushFrame_seek, pushFrame_fst, h]
    exact ⟨rfl, rfl, rfl⟩

lemma trace_stalled_count (ins : List PushIn) : ∀ s : DecoderState,
    s.isSeeking = false →
    (∀ i ∈ ins, i.buffered ≠ []) →
    (∀ x ∈ pushTrace s ins, stalledObs x.1.momentumQualityStats = true) →
    1 ≤ ins.length → 6 ≤ s.stalledCounter + ins.length →
    ((pushTrace s ins).countP fun x => x.2.seek.isSome) = 1 := by
  induction ins with
  | nil => intro s _ _ _ hlen _; simp at hlen
  | cons i rest ih =>
      intro s hseek hbuf hst hlen hsum
      have hbne : i.buffered ≠ [] := hbuf i (List.mem_cons_self i rest)
      have hstHead :
          stalledObs (pushFrame i.backend i.frame i.buffered i.now s).1.momentumQualityStats
            = true :=
        hst _ (by simp only [pushTrace]; exact List.mem_cons_self _ _)
      by_cases hc : s.stalledCounter < 5
      · have h := pushFrame_stalled_low i.backend i.frame i.buffered i.now s hbne
          hseek hstHead hc
        simp only [pushTrace, List.countP_cons, h.1, Option.isSome_none,
          Bool.false_eq_true, if_false, add_zero]
        refine ih _ h.2.1 (fun j hj => hbuf j (List.mem_cons_of_mem _ hj))
          (fun x hx => hst x (by simp only [pushTrace]; exact List.mem_cons_of_mem _ hx))
          ?_ ?_
        · simp only [List.length_cons] at hsum; omega
        · rw [h.2.2]; simp only [List.length_cons] at hsum ⊢; omega
      · have h := pushFrame_stalled_high i.backend i.frame i.buffered i.now s hbne
          hseek hstHead (by omega)
        simp only [pushTrace, List.countP_cons, h.1, if_true]
        have h0 := trace_inFlight rest
          (pushFrame i.backend i.frame i.buffered i.now s).1 h.2.1 (by rw [h.2.2]; omega)
        omega

/-- C1 (amended): in the Normal state (no recovery seek in flight), when 6
consecutive pushFrame-triggered momentum recomputations each yield
`inputFrames > 0` and `decodedFrames == 0` and the output surface reports at
least one buffered range at each push, pushFrame requests a forced seek
exactly once during those 6 pushes, and the stall counter is 0 immediately
after the requesting push. (The recovery condition is
`stalledCounter > 5`, so 5 consecutive stalled observations are not enough;
see the counterexample.) -/
theorem C1_amended_recovery_fires_once (s : DecoderState) (ins : List PushIn)
    (hseek : s.isSeeking = false) (hlen : ins.length = 6)
    (hbuf : ∀ i ∈ ins, i.buffered ≠ [])
    (hst : ∀ x ∈ pushTrace s ins, stalledObs x.1.momentumQualityStats = true) :
    ((pushTrace s ins).countP fun x => x.2.seek.isSome) = 1 ∧
    ((pushTrace s ins).filter fun x => x.2.seek.isSome).all
      (fun x => decide (x.1.stalledCounter = 0)) = true := by
  constructor
  · exact trace_stalled_count ins s hseek hbuf hst (by omega) (by omega)
  · rw [List.all_eq_true]
    intro x hx
    rw [List.mem_filter] at hx
    exact decide_eq_true (trace_fire ins s x hx.1 hx.2)

/-- C1 (witness): the amended claim at the concrete six-push stalled run. -/
theorem C1_witness :
    ((pushTrace initialState sixStalled).countP fun x => x.2.seek.isSome) = 1 ∧
    ((pushTrace initialState sixStalled).filter fun x => x.2.seek.isSome).all
      (fun x => decide (x.1.stalledCounter = 0)) = true :=
  C1_amended_recovery_fires_once initialState sixStalled (by decide) (by decide)
    (by decide) (by decide)

/-- C3 (amended): whenever the stall-recovery action fires in pushFrame,
the playback position is forced to the end of the *first* buffered range
reported by the output surface (`buffered.end(0)`), for every state of the
buffered-range list. -/
theorem C3_amended_seek_targets_first_range (b : Backend) (f : Frame)
    (buffered : List (ℚ × ℚ)) (now : ℤ) (s : DecoderState)
    (h : ((pushFrame b f buffered now s).2.seek).isSome = true) :
    buffered.head?.map Prod.snd = (pushFrame b f buffered now s).2.seek :=
  (pushFrame_fire b f buffered now s h).2.2

/-- C3 (witness): the amended claim at a concrete firing push over the
two-range buffered list: the seek targets 2, the end of the first range. -/
theorem C3_witness :
    twoRanges.head?.map Prod.snd =
      (pushFrame Backend.unavailable ⟨false, 100⟩ twoRanges 0
        { initialState with stalledCounter := 10 }).2.seek :=
  C3_amended_seek_targets_first_range Backend.unavailable ⟨false, 100⟩ twoRanges 0
    { initialState with stalledCounter := 10 } (by decide)

/-- C4: from the moment pushFrame fires a recovery seek (setting the
seek-in-flight flag) and until the seek-completed signal fires, no
additional forced seek is requested by any number of subsequent pushFrame
calls, whatever observations (stalled or not) they produce: along any push
trace started right after the firing push — a trace contains pushes only,
no `seeked` event — the number of seek requests is 0. -/
theorem C4_no_reseek_while_in_flight (b : Backend) (f : Frame)
    (buffered : List (ℚ × ℚ)) (now : ℤ) (s : DecoderState) (ins : List PushIn)
    (hfire : ((pushFrame b f buffered now s).2.seek).isSome = true) :
    ((pushTrace (pushFrame b f buffered now s).1 ins).countP
      fun x => x.2.seek.isSome) = 0 := by
  have h := pushFrame_fire b f buffered now s hfire
  exact trace_inFlight ins _ h.2.1 (by rw [h.1]; omega)

/-- C4 (witness): a concrete firing push followed by six further stalled
pushes requests no further seek. -/
theorem C4_witness :
    ((pushTrace (pushFrame Backend.unavailable ⟨false, 100⟩ [((0 : ℚ), (3 : ℚ))] 0
        { initialState with stalledCounter := 10 }).1 sixStalled).countP
      fun x => x.2.seek.isSome) = 0 :=
  C4_no_reseek_while_in_flight Backend.unavailable ⟨false, 100⟩ [((0 : ℚ), (3 : ℚ))]
    0 { initialState with stalledCounter := 10 } sixStalled (by decide)



lemma getVideoPlaybackQuality_timestamp {b : Backend} {now : ℤ} {st : QualityStats}
    (hb : getVideoPlaybackQuality b now = some st) : st.timestamp = now := by
  cases b with
  | moz => simp [getVideoPlaybackQuality] at hb
  | unavailable => simp [getVideoPlaybackQuality] at hb
  | standard d r =>
      simp only [getVideoPlaybackQuality, Option.some.injEq] at hb
      rw [← hb]
  | webkit d r =>
      simp only [getVideoPlaybackQuality, Option.some.injEq] at hb
      rw [← hb]

lemma evictOld_sorted {α : Type} (ts : α → ℤ) (c : ℤ) (l : List α)
    (h : List.Pairwise (fun a b => ts a ≤ ts b) l) :
    evictOld ts c l = l.filter (fun a => decide (c ≤ ts a)) ∧
    l = (l.filter fun a => decide (ts a < c)) ++ evictOld ts c l := by
  induction l with
  | nil => exact ⟨rfl, rfl⟩
  | cons a t ih =>
      rw [List.pairwise_cons] at h
      obtain ⟨ha, ht⟩ := h
      have iht := ih ht
      by_cases hc : ts a < c
      · have h1 : (decide (ts a < c)) = true := decide_eq_true hc
        have h2 : (decide (c ≤ ts a)) = false := by simp; omega
        unfold evictOld at iht ⊢
        rw [List.dropWhile_cons, h1, if_pos rfl]
        constructor
        · rw [List.filter_cons, h2]
          exact iht.1
        · rw [List.filter_cons, h1]
          simp only [if_true, List.cons_append]
          exact congrArg (a :: ·) iht.2
      · have h1 : (decide (ts a < c)) = false := by simp; omega
        have h2 : (decide (c ≤ ts a)) = true := by simp; omega
        unfold evictOld
        rw [List.dropWhile_cons, h1]
        simp only [Bool.false_eq_true, if_false]
        constructor
        · rw [List.filter_cons, h2]
          simp only [if_true]
          refine congrArg (a :: ·) ?_
          symm
          rw [List.filter_eq_self]
          intro b hb
          have hab := ha b hb
          simp only [decide_eq_true_eq]
          omega
        · rw [List.filter_cons, h1]
          simp only [Bool.false_eq_true, if_false]
          have hnil : List.filter (fun x => decide (ts x < c)) t = [] := by
            rw [List.filter_eq_nil_iff]
            intro b hb
            have hab := ha b hb
            simp only [decide_eq_true_eq]
            omega
          rw [hnil, List.nil_append]

lemma calculateMomentumStats_windows {b : Backend} {now : ℤ} {st : QualityStats}
    (s : DecoderState) (hb : getVideoPlaybackQuality b now = some st) :
    (calculateMomentumStats b now s).videoStats =
      evictOld QualityStats.timestamp (now - 1000) (s.videoStats ++ [st]) ∧
    (calculateMomentumStats b now s).inputBytes =
      evictOld InputSample.timestamp (now - 1000) s.inputBytes := by
  unfold calculateMomentumStats
  rw [hb]
  dsimp only
  split
  next heq => exact ⟨rfl, rfl⟩
  next oldest rest heq => exact ⟨heq.symm, rfl⟩

lemma dropWhile_concat_of_neg {α : Type} (p : α → Bool) (l : List α) (a : α)
    (h : p a = false) : ∃ l', (l ++ [a]).dropWhile p = l' ++ [a] := by
  induction l with
  | nil => exact ⟨[], by simp [List.dropWhile_cons, h]⟩
  | cons x t ih =>
      rw [List.cons_append, List.dropWhile_cons]
      by_cases hx : p x = true
      · rw [hx, if_pos rfl]
        exact ih
      · rw [Bool.not_eq_true] at hx
        rw [hx]
        exact ⟨x :: t, by simp⟩

lemma evict_concat_last {α : Type} (ts : α → ℤ) (c : ℤ) (l : List α) (a : α)
    (h : decide (ts a < c) = false) :
    evictOld ts c (l ++ [a]) ≠ [] ∧ (evictOld ts c (l ++ [a])).getLast? = some a := by
  obtain ⟨l', hl⟩ := dropWhile_concat_of_neg (fun x => decide (ts x < c)) l a h
  unfold evictOld
  rw [hl]
  exact ⟨by simp, List.getLast?_concat _⟩

lemma calculateMomentumStats_momentum {b : Backend} {now : ℤ} {st : QualityStats}
    (s : DecoderState) (hb : getVideoPlaybackQuality b now = some st)
    (oldest : QualityStats) (rest : List QualityStats)
    (hv : evictOld QualityStats.timestamp (now - 1000) (s.videoStats ++ [st]) =
      oldest :: rest) :
    (calculateMomentumStats b now s).momentumQualityStats = some
      { decodedFrames := st.decodedFrames - oldest.decodedFrames
        droppedFrames := st.droppedFrames - oldest.droppedFrames
        inputBytes :=
          ((evictOld InputSample.timestamp (now - 1000) s.inputBytes).map
            InputSample.bytes).sum
        inputFrames := (evictOld InputSample.timestamp (now - 1000) s.inputBytes).length
        timestamp := now } := by
  unfold calculateMomentumStats
  rw [hb]
  dsimp only
  split
  next heq =>
      rw [hv] at heq
      simp at heq
  next o r heq =>
      rw [hv] at heq
      injection heq with h1 h2
      subst h1
      subst h2
      rfl

/-- C6: on every momentum recomputation with available counters, after the
eviction step every retained sample of either window has timestamp
`≥ now − 1000`, the retained window is exactly the suffix of samples with
timestamp `≥ now − 1000`, and exactly the samples strictly older than
`now − 1000` have been removed from the front of each window (samples
arriving in non-decreasing timestamp order). The quality window here is the
pre-eviction window with the fresh sample already recorded. -/
theorem C6_window_eviction (b : Backend) (now : ℤ) (s : DecoderState)
    (st : QualityStats)
    (hb : getVideoPlaybackQuality b now = some st)
    (hq : List.Pairwise (fun a c => a.timestamp ≤ c.timestamp) s.videoStats)
    (hqn : ∀ q ∈ s.videoStats, q.timestamp ≤ now)
    (hi : List.Pairwise (fun a c => a.timestamp ≤ c.timestamp) s.inputBytes) :
    ((calculateMomentumStats b now s).videoStats =
        (s.videoStats ++ [st]).filter (fun q => decide (now - 1000 ≤ q.timestamp)) ∧
      s.videoStats ++ [st] =
        ((s.videoStats ++ [st]).filter fun q => decide (q.timestamp < now - 1000)) ++
          (calculateMomentumStats b now s).videoStats ∧
      ((calculateMomentumStats b now s).videoStats.all
        fun q => decide (now - 1000 ≤ q.timestamp)) = true) ∧
    ((calculateMomentumStats b now s).inputBytes =
        s.inputBytes.filter (fun i => decide (now - 1000 ≤ i.timestamp)) ∧
      s.inputBytes =
        (s.inputBytes.filter fun i => decide (i.timestamp < now - 1000)) ++
          (calculateMomentumStats b now s).inputBytes ∧
      ((calculateMomentumStats b now s).inputBytes.all
        fun i => decide (now - 1000 ≤ i.timestamp)) = true) := by
  have hw := calculateMomentumStats_windows s hb
  have hts := getVideoPlaybackQuality_timestamp hb
  have hpre : List.Pairwise (fun a c => a.timestamp ≤ c.timestamp)
      (s.videoStats ++ [st]) := by
    rw [List.pairwise_append]
    refine ⟨hq, List.pairwise_singleton _ _, ?_⟩
    intro a ha x hx
    rw [List.mem_singleton] at hx
    subst hx
    rw [hts]
    exact hqn a ha
  have e1 := evictOld_sorted QualityStats.timestamp (now - 1000) _ hpre
  have e2 := evictOld_sorted InputSample.timestamp (now - 1000) _ hi
  rw [hw.1, hw.2]
  refine ⟨⟨e1.1, e1.2, ?_⟩, e2.1, e2.2, ?_⟩
  · rw [e1.1, List.all_eq_true]
    intro q hmem
    exact (List.mem_filter.mp hmem).2
  · rw [e2.1, List.all_eq_true]
    intro i hmem
    exact (List.mem_filter.mp hmem).2

/-- C7: on every momentum recomputation with available counters, after
eviction the quality window retains at least one sample — the freshly
recorded one is its last element — and `momentumQualityStats` is replaced
by exactly: the decoded/dropped deltas of the fresh (latest) sample against
the oldest retained sample (the window head), the byte sum over the
retained input samples, and the count of retained input samples. -/
theorem C7_momentum_replacement (b : Backend) (now : ℤ) (s : DecoderState)
    (st : QualityStats)
    (hb : getVideoPlaybackQuality b now = some st)
    (hq : List.Pairwise (fun a c => a.timestamp ≤ c.timestamp) s.videoStats)
    (hqn : ∀ q ∈ s.videoStats, q.timestamp ≤ now) :
    (calculateMomentumStats b now s).videoStats ≠ [] ∧
    ((calculateMomentumStats b now s).videoStats).getLast? = some st ∧
    (calculateMomentumStats b now s).momentumQualityStats =
      ((calculateMomentumStats b now s).videoStats).head?.map (fun oldest =>
        { decodedFrames := st.decodedFrames - oldest.decodedFrames
          droppedFrames := st.droppedFrames - oldest.droppedFrames
          inputBytes :=
            (((calculateMomentumStats b now s).inputBytes).map InputSample.bytes).sum
          inputFrames := ((calculateMomentumStats b now s).inputBytes).length
          timestamp := now }) := by
  have hts := getVideoPlaybackQuality_timestamp hb
  have hw := calculateMomentumStats_windows s hb
  have hpd : (decide (st.timestamp < now - 1000)) = false := by
    simp only [decide_eq_false_iff_not]
    omega
  have hcl := evict_concat_last QualityStats.timestamp (now - 1000) s.videoStats st hpd
  obtain ⟨oldest, rest, hv⟩ : ∃ o r,
      evictOld QualityStats.timestamp (now - 1000) (s.videoStats ++ [st]) = o :: r := by
    rcases h : evictOld QualityStats.timestamp (now - 1000) (s.videoStats ++ [st]) with
      _ | ⟨o, r⟩
    · exact absurd h hcl.1
    · exact ⟨o, r, rfl⟩
  have hm := calculateMomentumStats_momentum s hb oldest rest hv
  refine ⟨by rw [hw.1]; exact hcl.1, by rw [hw.1]; exact hcl.2, ?_⟩
  rw [hm, hw.1, hw.2, hv]
  rfl

/-- C6 (witness): the eviction contract at a concrete recomputation at
`now = 1500` over the aged windows: the samples at 0 ms and 100 ms are
evicted, the rest retained. -/
theorem C6_witness :
    ((calculateMomentumStats (Backend.standard 5 1) 1500 agedState).videoStats =
        (agedState.videoStats ++ [(⟨1500, 5, 1⟩ : QualityStats)]).filter
          (fun q => decide (1500 - 1000 ≤ q.timestamp)) ∧
      agedState.videoStats ++ [(⟨1500, 5, 1⟩ : QualityStats)] =
        ((agedState.videoStats ++ [(⟨1500, 5, 1⟩ : QualityStats)]).filter
          fun q => decide (q.timestamp < 1500 - 1000)) ++
          (calculateMomentumStats (Backend.standard 5 1) 1500 agedState).videoStats ∧
      ((calculateMomentumStats (Backend.standard 5 1) 1500 agedState).videoStats.all
        fun q => decide (1500 - 1000 ≤ q.timestamp)) = true) ∧
    ((calculateMomentumStats (Backend.standard 5 1) 1500 agedState).inputBytes =
        agedState.inputBytes.filter (fun i => decide (1500 - 1000 ≤ i.timestamp)) ∧
      agedState.inputBytes =
        (agedState.inputBytes.filter fun i => decide (i.timestamp < 1500 - 1000)) ++
          (calculateMomentumStats (Backend.standard 5 1) 1500 agedState).inputBytes ∧
      ((calculateMomentumStats (Backend.standard 5 1) 1500 agedState).inputBytes.all
        fun i => decide (1500 - 1000 ≤ i.timestamp)) = true) :=
  C6_window_eviction (Backend.standard 5 1) 1500 agedState ⟨1500, 5, 1⟩ rfl
    (by decide) (by decide) (by decide)

/-- C7 (witness): the momentum-replacement contract at the same concrete
recomputation: the fresh sample is retained last and the stats are the
deltas against the oldest retained sample. -/
theorem C7_witness :
    (calculateMomentumStats (Backend.standard 5 1) 1500 agedState).videoStats ≠ [] ∧
    ((calculateMomentumStats (Backend.standard 5 1) 1500 agedState).videoStats).getLast? =
      some ⟨1500, 5, 1⟩ ∧
    (calculateMomentumStats (Backend.standard 5 1) 1500 agedState).momentumQualityStats =
      ((calculateMomentumStats (Backend.standard 5 1) 1500 agedState).videoStats).head?.map
        (fun oldest =>
          { decodedFrames := (5 : ℤ) - oldest.decodedFrames
            droppedFrames := (1 : ℤ) - oldest.droppedFrames
            inputBytes :=
              (((calculateMomentumStats (Backend.standard 5 1) 1500
                agedState).inputBytes).map InputSample.bytes).sum
            inputFrames :=
              ((calculateMomentumStats (Backend.standard 5 1) 1500
                agedState).inputBytes).length
            timestamp := 1500 }) :=
  C7_momentum_replacement (Backend.standard 5 1) 1500 agedState ⟨1500, 5, 1⟩ rfl
    (by decide) (by decide)

lemma jsTrunc_eq_floor {q : ℚ} (h : 0 ≤ q) : jsTrunc q = ⌊q⌋ := by
  unfold jsTrunc
  rw [if_pos h]

lemma pushFrame_removal (b : Backend) (f : Frame) (buffered : List (ℚ × ℚ))
    (now : ℤ) (s : DecoderState) :
    (pushFrame b f buffered now s).2.removal =
      (trimSection f buffered (superPushFrame b f.bytes now s)).1 :=
  rfl

lemma pushFrame_appended (b : Backend) (f : Frame) (buffered : List (ℚ × ℚ))
    (now : ℤ) (s : DecoderState) :
    (pushFrame b f buffered now s).2.appended =
      (trimSection f buffered (superPushFrame b f.bytes now s)).2 :=
  rfl

/-- C5: with a converter present, a key frame pushed while the output
surface's first buffered range `[start, end)` satisfies
`0 ≤ start < ⌊end⌋` issues a removal request for exactly `[start, ⌊end⌋]`
and the frame is appended (the removal is issued before the append — see
`PushEffects`); a non-key frame never issues a removal request. -/
theorem C5_keyframe_trim :
    (∀ (b : Backend) (now : ℤ) (s : DecoderState) (f : Frame) (st en : ℚ)
        (rest : List (ℚ × ℚ)),
      s.converter.isSome = true → f.isKey = true → 0 ≤ st →
      st < ((⌊en⌋ : ℤ) : ℚ) →
      (pushFrame b f ((st, en) :: rest) now s).2.removal = some (st, ⌊en⌋) ∧
      (pushFrame b f ((st, en) :: rest) now s).2.appended = true) ∧
    (∀ (b : Backend) (now : ℤ) (s : DecoderState) (f : Frame)
        (buffered : List (ℚ × ℚ)),
      f.isKey = false → (pushFrame b f buffered now s).2.removal = none) := by
  constructor
  · intro b now s f st en rest hconv hkey hst hlt
    have hfl : (0 : ℤ) < ⌊en⌋ := by exact_mod_cast lt_of_le_of_lt hst hlt
    have hen : (0 : ℚ) ≤ en := by
      have h1 : ((1 : ℤ) : ℚ) ≤ ((⌊en⌋ : ℤ) : ℚ) := by exact_mod_cast hfl
      have h2 := Int.floor_le en
      push_cast at h1
      linarith
    have htr : jsTrunc en = ⌊en⌋ := jsTrunc_eq_floor hen
    have hc := (superPushFrame_flags b f.bytes now s).2.2
    rcases hx : s.converter with _ | g
    · rw [hx] at hconv
      simp at hconv
    · have ht : trimSection f ((st, en) :: rest) (superPushFrame b f.bytes now s) =
          (some (st, ⌊en⌋), true) := by
        unfold trimSection isIFrame
        rw [hc, hx, hkey]
        try dsimp only
        rw [htr]
        rw [if_pos (show ⌊en⌋ ≠ 0 ∧ st < ((⌊en⌋ : ℤ) : ℚ) from ⟨by omega, hlt⟩)]
        rw [if_pos rfl]
      rw [pushFrame_removal, pushFrame_appended, ht]
      exact ⟨rfl, rfl⟩
  · intro b now s f buffered hkey
    rw [pushFrame_removal]
    unfold trimSection
    rcases hx : (superPushFrame b f.bytes now s).converter with _ | g
    · rfl
    · unfold isIFrame
      rw [hkey]
      rfl

/-- C5 (witness): a key frame pushed with buffered range `[2.0, 5.0)`
issues removal of exactly `[2, 5]` (end floored) before the append, and a
non-key frame pushed in the same situation issues no removal. -/
theorem C5_witness :
    (pushFrame (Backend.standard 7 0) ⟨true, 100⟩ [((2 : ℚ), (5 : ℚ))] 0
      initialState).2.removal = some (2, ⌊(5 : ℚ)⌋) ∧
    (pushFrame (Backend.standard 7 0) ⟨true, 100⟩ [((2 : ℚ), (5 : ℚ))] 0
      initialState).2.appended = true ∧
    ⌊(5 : ℚ)⌋ = (5 : ℤ) ∧
    (pushFrame (Backend.standard 7 0) ⟨false, 100⟩ [((2 : ℚ), (5 : ℚ))] 0
      initialState).2.removal = none :=
  ⟨(C5_keyframe_trim.1 (Backend.standard 7 0) 0 initialState ⟨true, 100⟩ 2 5 []
      (by decide) rfl (by norm_num) (by decide)).1,
    (C5_keyframe_trim.1 (Backend.standard 7 0) 0 initialState ⟨true, 100⟩ 2 5 []
      (by decide) rfl (by norm_num) (by decide)).2,
    by decide,
    C5_keyframe_trim.2 (Backend.standard 7 0) 0 initialState ⟨false, 100⟩
      [((2 : ℚ), (5 : ℚ))] rfl⟩

/-- C9: after `resetStats()` empties the sample windows, the first
subsequent push with available counters differences the newly recorded
quality sample against itself, so the recomputed momentum stats have
`decodedFrames = 0` and `droppedFrames = 0` with `inputFrames = 1 > 0`
(the input sample the push itself records), and this very first post-reset
observation is counted as stalled: the stall counter is incremented on that
push. -/
theorem C9_first_post_reset_observation (b : Backend) (f : Frame)
    (buffered : List (ℚ × ℚ)) (now : ℤ) (s : DecoderState) (st : QualityStats)
    (hb : getVideoPlaybackQuality b now = some st)
    (hseek : s.isSeeking = false) (hc : s.stalledCounter < 5) :
    (pushFrame b f buffered now (resetStats s)).1.momentumQualityStats =
      some ⟨0, 0, f.bytes, 1, now⟩ ∧
    (pushFrame b f buffered now (resetStats s)).1.stalledCounter =
      s.stalledCounter + 1 := by
  have h1 : ¬ (now < now - 1000) := by omega
  have h2 : ¬ (5 < s.stalledCounter + 1) := by omega
  cases b with
  | moz => simp [getVideoPlaybackQuality] at hb
  | unavailable => simp [getVideoPlaybackQuality] at hb
  | standard d r =>
      rcases buffered with _ | ⟨r0, rest0⟩ <;>
        constructor <;>
          simp [pushFrame, superPushFrame, calculateMomentumStats,
            getVideoPlaybackQuality, resetStats, evictOld, stallSection, stalledObs,
            List.dropWhile_cons, h1, h2, hseek]
  | webkit d r =>
      rcases buffered with _ | ⟨r0, rest0⟩ <;>
        constructor <;>
          simp [pushFrame, superPushFrame, calculateMomentumStats,
            getVideoPlaybackQuality, resetStats, evictOld, stallSection, stalledObs,
            List.dropWhile_cons, h1, h2, hseek]

/-- C9 (witness): the first post-reset push at a concrete state. -/
theorem C9_witness :
    (pushFrame (Backend.standard 7 0) ⟨false, 100⟩ [((0 : ℚ), (3 : ℚ))] 0
      (resetStats agedState)).1.momentumQualityStats = some ⟨0, 0, 100, 1, 0⟩ ∧
    (pushFrame (Backend.standard 7 0) ⟨false, 100⟩ [((0 : ℚ), (3 : ℚ))] 0
      (resetStats agedState)).1.stalledCounter = agedState.stalledCounter + 1 :=
  C9_first_post_reset_observation (Backend.standard 7 0) ⟨false, 100⟩
    [((0 : ℚ), (3 : ℚ))] 0 agedState ⟨0, 7, 0⟩ rfl (by decide) (by decide)

/-- C10: a `setVideoSettings` call whose new `maxFps` differs from the
current one while a converter exists stops the converter and creates a new
one sized by the new `maxFps`, but leaves the quality-sample window
(`videoStats`) and the stall counter unchanged and never invokes
`resetStats`: `play()` resets stats only when it creates the converter
itself, and here the converter has already been reassigned before `play()`
runs. -/
theorem C10_fps_change_preserves_stats (s : DecoderState) (v old : VideoSettings)
    (g : ℤ) (hvs : s.videoSettings = some old) (hfps : old.maxFps ≠ v.maxFps)
    (hconv : s.converter = some g) :
    (setVideoSettings v s).1.videoStats = s.videoStats ∧
    (setVideoSettings v s).1.stalledCounter = s.stalledCounter ∧
    (setVideoSettings v s).1.converter = some v.maxFps ∧
    MseEvent.converterPaused ∈ (setVideoSettings v s).2 ∧
    MseEvent.converterCreated v.maxFps ∈ (setVideoSettings v s).2 ∧
    MseEvent.statsReset ∉ (setVideoSettings v s).2 := by
  cases hps : s.playState <;> cases hsc : s.screenInfo <;>
    simp [setVideoSettings, stop, stopConverter, superStop, play, superPlay,
      resetStats, superSetVideoSettings, hvs, hfps, hconv, hps, hsc]

/-- C10 (witness): changing `maxFps` from 60 to 30 at a concrete state with
aged windows replaces the converter but leaves the windows and the stall
counter untouched, with no stats reset. -/
theorem C10_witness :
    (setVideoSettings ⟨30⟩ agedState).1.videoStats = agedState.videoStats ∧
    (setVideoSettings ⟨30⟩ agedState).1.stalledCounter = agedState.stalledCounter ∧
    (setVideoSettings ⟨30⟩ agedState).1.converter = some (30 : ℤ) ∧
    MseEvent.converterPaused ∈ (setVideoSettings ⟨30⟩ agedState).2 ∧
    MseEvent.converterCreated (30 : ℤ) ∈ (setVideoSettings ⟨30⟩ agedState).2 ∧
    MseEvent.statsReset ∉ (setVideoSettings ⟨30⟩ agedState).2 :=
  C10_fps_change_preserves_stats agedState ⟨30⟩ ⟨60⟩ 60 rfl (by decide) rfl

end MseDecoder
